import Mathlib

/-!
# Verification of the newsletter mailbot core pipeline

Shallow embedding of the scan-and-unsubscribe pipeline of the repository
(`src/mailbot.py`, `src/app.py`): header-based newsletter classification,
unsubscribe-link extraction from the `List-Unsubscribe` header, folder
scanning with sender deduplication, the per-link unsubscribe attempts with
their three-valued outcomes, the processed/unsubscribed ledger, and the
newsletter-level aggregation performed in `app.py`.

External collaborators (the IMAP connection, the HTTP layer `requests`,
the HTML parser BeautifulSoup, the Playwright browser automation, and the
`hashlib` digest) are modelled as explicit parameters or as abstract data
carried in the structures, exactly at the interface the Python code uses.
-/

namespace Mailbot

/-- Per-link attempt status; the `status` field of the result dicts built in
`MailBot.unsubscribe` takes exactly the values `success`,
`needs_confirmation` and `error`. -/
inductive Status where
  | success
  | needs_confirmation
  | error
deriving DecidableEq, Repr

/-- One per-link attempt result: the dict
`{"link": ..., "status": ..., "message": ...}` appended to `results` in
`MailBot.unsubscribe`. -/
structure AttemptResult where
  link : String
  status : Status
  message : String
deriving DecidableEq, Repr

/-- The durable ledger stored in `processed.json`
(`{"processed_ids": [...], "unsubscribed": [...]}`). Python stores both as
JSON lists, so we model them as lists of ids. -/
structure Ledger where
  processed_ids : List String
  unsubscribed : List String
deriving DecidableEq, Repr

/-- In-memory/on-disk pair: `ledger` is `self.processed` held by the
`MailBot` instance, `disk` is the current content of `processed.json`;
`save_processed` copies the former onto the latter. -/
structure BotState where
  ledger : Ledger
  disk : Ledger
deriving DecidableEq, Repr

/-! ## Substring containment (Python's `in` on strings) -/

/-- `containsSub hay needle` is Python's `needle in hay` on character
lists: some contiguous run of `hay` equals `needle`. -/
def containsSub (hay needle : List Char) : Bool :=
  needle.isPrefixOf hay ||
    match hay with
    | [] => false
    | _ :: t => containsSub t needle

/-- Python's `needle in hay` on strings. -/
def strContains (hay needle : String) : Bool :=
  containsSub hay.data needle.data

/-! ## The `List-Unsubscribe` header scanners

`MailBot._extract_unsubscribe_links` runs two `re.findall` passes over the
header value, with patterns `<(https?://[^>]+)>` and `<(mailto:[^>]+)>`.
We embed the non-overlapping left-to-right findall scan of these specific
patterns directly on character lists: at each `<`, if one of the scheme
literals follows and a non-empty run of non-`>` characters ends at a `>`,
the group (scheme plus run) is captured and scanning resumes after that
`>`; otherwise scanning advances one character.  A fuel argument (the
string length suffices) makes the recursion structural. -/

def httpScheme : List Char := ['h', 't', 't', 'p', ':', '/', '/']

def httpsScheme : List Char := ['h', 't', 't', 'p', 's', ':', '/', '/']

def mailtoScheme : List Char := ['m', 'a', 'i', 'l', 't', 'o', ':']

/-- Scheme alternatives of `https?://` (mutually exclusive on any string). -/
def httpSchemes : List (List Char) := [httpScheme, httpsScheme]

def mailtoSchemes : List (List Char) := [mailtoScheme]

/-- Try to match `SCHEME[^>]+>` at the start of `s` (the text following a
`<`), for the first scheme of `schemes` that is a literal prefix of `s`.
Returns the captured group and the remainder after the closing `>`. -/
def matchSchemes (schemes : List (List Char)) (s : List Char) :
    Option (List Char × List Char) :=
  match schemes with
  | [] => none
  | p :: ps =>
    if p.isPrefixOf s then
      match (s.drop p.length).dropWhile (fun c => !(c == '>')) with
      | '>' :: rem =>
        if ((s.drop p.length).takeWhile (fun c => !(c == '>'))).isEmpty then none
        else some (p ++ (s.drop p.length).takeWhile (fun c => !(c == '>')), rem)
      | _ => none
    else matchSchemes ps s

/-- Fuel-indexed findall scan for `<(SCHEME[^>]+)>`. -/
def findallAux (schemes : List (List Char)) : Nat → List Char → List (List Char)
  | 0, _ => []
  | _ + 1, [] => []
  | fuel + 1, c :: rest =>
    if c = '<' then
      match matchSchemes schemes rest with
      | some (g, rem) => g :: findallAux schemes fuel rem
      | none => findallAux schemes fuel rest
    else findallAux schemes fuel rest

/-- `re.findall` of `<(SCHEME[^>]+)>` over a character list. -/
def findallL (schemes : List (List Char)) (s : List Char) : List (List Char) :=
  findallAux schemes s.length s

/-- `MailBot._extract_unsubscribe_links`: the two findall passes. -/
structure UnsubLinks where
  http : List String
  mailto : List String
deriving DecidableEq, Repr

def extract_unsubscribe_links (header_value : String) : UnsubLinks :=
  { http := (findallL httpSchemes header_value.data).map (fun l => ⟨l⟩)
    mailto := (findallL mailtoSchemes header_value.data).map (fun l => ⟨l⟩) }

/-! ## Sender address extraction -/

/-- `extract_email_address`: `re.search(r'<([^>]+)>', from_header)` takes the
first angle-bracketed run if one exists, else the stripped raw value.  The
first `re.search` match coincides with the head of the findall scan with an
empty scheme literal. -/
def extract_email_address (from_header : String) : String :=
  match (findallL [([] : List Char)] from_header.data).head? with
  | some addr => ⟨addr⟩
  | none => from_header.trim

/-- Python's `str.lower()`, character-wise.  (Lean's `Char.toLower` lowers
the ASCII range; every phrase and address the code lowercases before
comparing is ASCII.) -/
def lowerString (s : String) : String := ⟨s.data.map Char.toLower⟩

/-! ## Messages and fingerprints -/

/-- A scanned message, as the scanner sees it after the external MIME layer:
`email.message_from_bytes` plus `decode_header` are external collaborators,
so the header fields here hold the already-decoded text the Python code
obtains from them (`msg.get(...)` / `decode_mime_header(...)`).
`listUnsubscribe` is `none` when the header is absent (Python `None`).
`body` is the message body, which `scan_folder` never fetches nor reads
(it fetches `RFC822.HEADER` only); it is carried here to state that fact. -/
structure Message where
  messageId : String
  listUnsubscribe : Option String
  fromHeader : String
  subject : String
  date : String
  body : String
deriving DecidableEq, Repr

/-- `generate_message_id`: md5 (external `hashlib`) is passed in as `hash`.
If the `Message-ID` header is non-empty (Python truthiness of
`msg.get("Message-ID", "")`), hash it; else hash the concatenation
`f"{from_addr}{date}{subject}"`. -/
def generate_message_id (hash : String → String) (msg : Message) : String :=
  if msg.messageId ≠ "" then hash msg.messageId
  else hash (msg.fromHeader ++ msg.date ++ msg.subject)

/-- A newsletter record as built in `MailBot.scan_folder`. -/
structure Newsletter where
  id : String
  message_id : String
  fromDisplay : String
  from_email : String
  subject : String
  date : String
  folder : String
  unsubscribe_links : UnsubLinks
  processed : Bool
  unsubscribed : Bool
deriving DecidableEq, Repr

/-- The per-message body of the `scan_folder` loop: a record is built iff
`msg.get("List-Unsubscribe")` is truthy (present and non-empty). -/
def processMessage (hash : String → String) (ledger : Ledger)
    (folder_name : String) (msg : Message) : Option Newsletter :=
  match msg.listUnsubscribe with
  | none => none
  | some lu =>
    if lu = "" then none
    else
      let msg_id := generate_message_id hash msg
      some
        { id := msg_id
          message_id := msg.messageId
          fromDisplay := msg.fromHeader
          from_email := extract_email_address msg.fromHeader
          subject := msg.subject
          date := msg.date
          folder := folder_name
          unsubscribe_links := extract_unsubscribe_links lu
          processed := ledger.processed_ids.contains msg_id
          unsubscribed := ledger.unsubscribed.contains msg_id }

/-- Python `message_ids[:limit]` guarded by `if limit:` — `None` and `0`
are both falsy, so only a positive limit truncates. -/
def applyLimit (limit : Option Nat) (l : List α) : List α :=
  match limit with
  | none => l
  | some n => if n = 0 then l else l.take n

/-- `MailBot.scan_folder`: the mailbox (external IMAP session) is a map
from folder name to its messages in mailbox order; the scan reverses them
(newest first), applies the limit, and keeps the messages classified as
newsletters. -/
def scan_folder (hash : String → String) (mailbox : String → List Message)
    (ledger : Ledger) (folder_name : String) (limit : Option Nat) :
    List Newsletter :=
  (applyLimit limit (mailbox folder_name).reverse).filterMap
    (processMessage hash ledger folder_name)

/-- The dedup loop of `MailBot.scan_all`: walk the concatenated records,
keeping a record iff its lowercased sender address was not seen before. -/
def dedupBySender : List Newsletter → List String → List Newsletter
  | [], _ => []
  | nl :: rest, seen =>
    if lowerString nl.from_email ∈ seen then dedupBySender rest seen
    else nl :: dedupBySender rest (lowerString nl.from_email :: seen)

/-- `MailBot.scan_all`: scan `"INBOX"` then `"Junk"`, concatenate, and
deduplicate by lowercased sender address, first occurrence winning. -/
def scan_all (hash : String → String) (mailbox : String → List Message)
    (ledger : Ledger) (limit_per_folder : Option Nat) : List Newsletter :=
  let all_newsletters :=
    scan_folder hash mailbox ledger "INBOX" limit_per_folder ++
      scan_folder hash mailbox ledger "Junk" limit_per_folder
  dedupBySender all_newsletters []

/-- Specification-style first-occurrence deduplication: keep each record
and drop every later record with the same lowercased sender. -/
def firstOccurDedup : List Newsletter → List Newsletter
  | [] => []
  | nl :: rest =>
    nl :: firstOccurDedup
      (rest.filter (fun x => lowerString x.from_email ≠ lowerString nl.from_email))
termination_by l => l.length
decreasing_by
  exact Nat.lt_succ_of_le (rest.length_filter_le _)

/-! ## The unsubscribe orchestrator -/

/-- The `success_indicators` list of `MailBot.unsubscribe` (identical to the
one in `_auto_confirm_unsubscribe`). -/
def successIndicators : List String :=
  ["erfolgreich abgemeldet", "successfully unsubscribed",
   "have been unsubscribed", "wurden abgemeldet",
   "you are now unsubscribed", "abmeldung erfolgreich",
   "subscription cancelled", "removed from", "opted out"]

/-- `any(ind in page_text for ind in success_indicators)` with
`page_text = response.text.lower()`. -/
def alreadyUnsubscribed (text : String) : Bool :=
  successIndicators.any (fun ind => strContains (lowerString text) ind)

/-- A fetched page as `MailBot.unsubscribe` inspects it: the raw text
(checked for success phrases), and the findings of the external HTML
parser (BeautifulSoup): whether `soup.find_all("form")` is non-empty,
whether `soup.find_all(["button", "input"], attrs={"type": ["submit",
"button"]})` is non-empty, and whether any anchor's text matches the
confirmation-keyword pattern `(confirm|unsubscribe|abmelden|bestätigen|yes)`. -/
structure PageBody where
  text : String
  hasForm : Bool
  hasConfirmButton : Bool
  hasConfirmAnchor : Bool
deriving DecidableEq, Repr

/-- Outcome of `requests.get(link, timeout=10, ...)`: a timeout
(`requests.Timeout`), any other exception with its text, or a response
with status code and body. -/
inductive FetchOutcome where
  | timeout
  | exn (msg : String)
  | response (statusCode : Nat) (body : PageBody)
deriving DecidableEq, Repr

/-- The body of the per-link loop in `MailBot.unsubscribe`.  `fetch` is the
external HTTP collaborator, `autoC` the external browser-automation
collaborator `_auto_confirm_unsubscribe` returning `(success, message)`. -/
def processLink (fetch : String → FetchOutcome) (autoC : String → Bool × String)
    (auto_confirm : Bool) (link : String) : AttemptResult :=
  match fetch link with
  | FetchOutcome.timeout =>
    { link := link, status := Status.error, message := "Zeitüberschreitung" }
  | FetchOutcome.exn msg =>
    { link := link, status := Status.error, message := msg }
  | FetchOutcome.response statusCode body =>
    if statusCode = 200 then
      if alreadyUnsubscribed body.text then
        { link := link, status := Status.success
          message := "Erfolgreich abgemeldet" }
      else
        let needs_confirmation :=
          body.hasForm || body.hasConfirmButton || body.hasConfirmAnchor
        if needs_confirmation && auto_confirm then
          let (success, message) := autoC link
          if success then
            { link := link, status := Status.success, message := message }
          else
            { link := link, status := Status.needs_confirmation
              message := "Automatische Bestätigung fehlgeschlagen: " ++ message }
        else if needs_confirmation then
          { link := link, status := Status.needs_confirmation
            message := "Manuelle Bestätigung auf der Website erforderlich" }
        else
          { link := link, status := Status.success
            message := "Erfolgreich abgemeldet" }
    else
      { link := link, status := Status.error
        message := "HTTP " ++ toString statusCode }

/-- Lines 502–511 of `MailBot.unsubscribe`: append the id to
`processed_ids` if absent, and, when some attempt succeeded, append it to
`unsubscribed` if absent. -/
def updateLedger (id : String) (anySuccess : Bool) (p0 : Ledger) : Ledger :=
  let p1 :=
    if id ∈ p0.processed_ids then p0
    else { p0 with processed_ids := p0.processed_ids ++ [id] }
  if anySuccess then
    if id ∈ p1.unsubscribed then p1
    else { p1 with unsubscribed := p1.unsubscribed ++ [id] }
  else p1

/-- `MailBot.unsubscribe`: attempt every web link in header order, then mark
the id processed (append if absent), mark it unsubscribed iff some attempt
succeeded (append if absent), and `save_processed` the ledger to disk
before returning. -/
def unsubscribe (fetch : String → FetchOutcome) (autoC : String → Bool × String)
    (newsletter : Newsletter) (auto_confirm : Bool) (st : BotState) :
    List AttemptResult × BotState :=
  let results :=
    newsletter.unsubscribe_links.http.map (processLink fetch autoC auto_confirm)
  let p := updateLedger newsletter.id
    (results.any (fun r => r.status == Status.success)) st.ledger
  (results, { ledger := p, disk := p })

/-! ## Newsletter-level aggregation (`do_unsubscribe` in `app.py`) -/

/-- The aggregation of per-link results into the newsletter-level outcome
in `app.py`: status starts as `error` with message "Keine Abmelde-Links
gefunden"; a non-empty result list is checked for any success, else any
needs_confirmation (appending the first such link to the message), else
the first result's message is reported. -/
def aggregate (results : List AttemptResult) : Status × String :=
  match results with
  | [] => (Status.error, "Keine Abmelde-Links gefunden")
  | r0 :: _ =>
    if results.any (fun r => r.status == Status.success) then
      (Status.success, "Erfolgreich abgemeldet")
    else if results.any (fun r => r.status == Status.needs_confirmation) then
      match results.find? (fun r => r.status == Status.needs_confirmation) with
      | some r =>
        (Status.needs_confirmation,
          "Manuelle Bestätigung erforderlich" ++ " - " ++ r.link)
      | none => (Status.needs_confirmation, "Manuelle Bestätigung erforderlich")
    else (Status.error, r0.message)

/-! ## Well-formed header entries (for the link-extraction claim)

The `List-Unsubscribe` header format the claim speaks about: a sequence of
angle-bracket-delimited URIs separated by `", "`.  An entry is classified
by its scheme; its URI must not contain the bracket characters, and a
recognized scheme must be followed by at least one character. -/

inductive UriEntry where
  | http (uri : String)
  | mailto (uri : String)
  | other (uri : String)
deriving DecidableEq, Repr

def UriEntry.uri : UriEntry → String
  | UriEntry.http u => u
  | UriEntry.mailto u => u
  | UriEntry.other u => u

/-- Well-formedness of a header entry: no angle brackets inside the URI,
and the scheme tag matches the URI's actual scheme (with a non-empty
remainder for the recognized schemes). -/
def UriEntry.wf : UriEntry → Bool
  | UriEntry.http u =>
    !u.data.contains '<' && !u.data.contains '>' &&
      ((httpScheme.isPrefixOf u.data && decide (httpScheme.length < u.data.length)) ||
        (httpsScheme.isPrefixOf u.data && decide (httpsScheme.length < u.data.length)))
  | UriEntry.mailto u =>
    !u.data.contains '<' && !u.data.contains '>' &&
      mailtoScheme.isPrefixOf u.data && decide (mailtoScheme.length < u.data.length)
  | UriEntry.other u =>
    !u.data.contains '<' && !u.data.contains '>' &&
      !httpScheme.isPrefixOf u.data && !httpsScheme.isPrefixOf u.data &&
      !mailtoScheme.isPrefixOf u.data

/-- Render a list of entries as a `List-Unsubscribe` header value:
angle-bracket each URI, separate entries with `", "`. -/
def renderHeader : List UriEntry → String
  | [] => ""
  | [e] => "<" ++ e.uri ++ ">"
  | e :: rest => "<" ++ e.uri ++ ">, " ++ renderHeader rest

def UriEntry.httpLink : UriEntry → Option String
  | UriEntry.http u => some u
  | _ => none

def UriEntry.mailtoLink : UriEntry → Option String
  | UriEntry.mailto u => some u
  | _ => none

/-! # Theorems

## Ledger update lemmas -/

theorem updateLedger_processed_ids (id : String) (b : Bool) (p : Ledger) :
    (updateLedger id b p).processed_ids =
      if id ∈ p.processed_ids then p.processed_ids
      else p.processed_ids ++ [id] := by
  unfold updateLedger
  cases b <;> by_cases hp : id ∈ p.processed_ids <;>
    by_cases hu : id ∈ p.unsubscribed <;> simp [hp, hu]

theorem updateLedger_unsubscribed (id : String) (b : Bool) (p : Ledger) :
    (updateLedger id b p).unsubscribed =
      if b = true ∧ id ∉ p.unsubscribed then p.unsubscribed ++ [id]
      else p.unsubscribed := by
  unfold updateLedger
  cases b <;> by_cases hp : id ∈ p.processed_ids <;>
    by_cases hu : id ∈ p.unsubscribed <;> simp [hp, hu]

theorem mem_updateLedger_processed (id : String) (b : Bool) (p : Ledger) :
    id ∈ (updateLedger id b p).processed_ids := by
  rw [updateLedger_processed_ids]
  by_cases hp : id ∈ p.processed_ids <;> simp [hp]

theorem mem_updateLedger_processed_iff (id x : String) (b : Bool) (p : Ledger) :
    x ∈ (updateLedger id b p).processed_ids ↔
      x ∈ p.processed_ids ∨ x = id := by
  rw [updateLedger_processed_ids]
  by_cases hp : id ∈ p.processed_ids <;> simp [hp]
  intro h
  rw [h]
  exact hp

theorem mem_updateLedger_unsubscribed_iff (id x : String) (b : Bool)
    (p : Ledger) : x ∈ (updateLedger id b p).unsubscribed ↔
      x ∈ p.unsubscribed ∨ (b = true ∧ x = id) := by
  rw [updateLedger_unsubscribed]
  cases b <;> by_cases hu : id ∈ p.unsubscribed <;> simp [hu]
  intro h
  rw [h]
  exact hu

/-- **C2** (part): after `unsubscribe`, the id is processed; it is
unsubscribed iff it was before or some attempt in this call succeeded; and
the saved (disk) ledger equals the in-memory one. -/
theorem unsubscribe_ledger_spec (fetch : String → FetchOutcome)
    (autoC : String → Bool × String) (nl : Newsletter) (auto_confirm : Bool)
    (st : BotState) :
    nl.id ∈ (unsubscribe fetch autoC nl auto_confirm st).2.ledger.processed_ids
    ∧ (nl.id ∈ (unsubscribe fetch autoC nl auto_confirm st).2.ledger.unsubscribed
        ↔ nl.id ∈ st.ledger.unsubscribed ∨
          ∃ r ∈ (unsubscribe fetch autoC nl auto_confirm st).1,
            r.status = Status.success)
    ∧ (unsubscribe fetch autoC nl auto_confirm st).2.disk
        = (unsubscribe fetch autoC nl auto_confirm st).2.ledger := by
  refine ⟨mem_updateLedger_processed _ _ _, ?_, rfl⟩
  rw [show (unsubscribe fetch autoC nl auto_confirm st).2.ledger
      = updateLedger nl.id
          ((unsubscribe fetch autoC nl auto_confirm st).1.any
            (fun r => r.status == Status.success)) st.ledger from rfl]
  rw [mem_updateLedger_unsubscribed_iff]
  simp [List.any_eq_true]

theorem nodup_append_singleton {l : List String} {a : String} (h : l.Nodup)
    (ha : a ∉ l) : (l ++ [a]).Nodup := by
  simp [List.nodup_append, h, ha]

/-- Witness for C2 at a concrete input: after unsubscribing a newsletter
whose single link succeeds, its id is processed and the ledger is saved. -/
theorem unsubscribe_ledger_spec_witness :
    "n1" ∈ (unsubscribe
        (fun _ => FetchOutcome.response 200
          { text := "you are now unsubscribed", hasForm := false,
            hasConfirmButton := false, hasConfirmAnchor := false })
        (fun _ => (false, ""))
        (Newsletter.mk "n1" "" "" "" "" "" "INBOX"
          (UnsubLinks.mk ["https://x.test/u"] []) false false) true
        { ledger := Ledger.mk [] [],
          disk := Ledger.mk [] [] }).2.ledger.processed_ids
    ∧ (unsubscribe
        (fun _ => FetchOutcome.response 200
          { text := "you are now unsubscribed", hasForm := false,
            hasConfirmButton := false, hasConfirmAnchor := false })
        (fun _ => (false, ""))
        (Newsletter.mk "n1" "" "" "" "" "" "INBOX"
          (UnsubLinks.mk ["https://x.test/u"] []) false false) true
        { ledger := Ledger.mk [] [], disk := Ledger.mk [] [] }).2.disk
      = (unsubscribe
        (fun _ => FetchOutcome.response 200
          { text := "you are now unsubscribed", hasForm := false,
            hasConfirmButton := false, hasConfirmAnchor := false })
        (fun _ => (false, ""))
        (Newsletter.mk "n1" "" "" "" "" "" "INBOX"
          (UnsubLinks.mk ["https://x.test/u"] []) false false) true
        { ledger := Ledger.mk [] [], disk := Ledger.mk [] [] }).2.ledger :=
  ⟨(unsubscribe_ledger_spec _ _ _ _ _).1, (unsubscribe_ledger_spec _ _ _ _ _).2.2⟩

/-- **C3**: every `unsubscribe` call preserves the ledger invariant
`unsubscribed ⊆ processed_ids`. -/
theorem unsubscribe_preserves_subset_invariant (fetch : String → FetchOutcome)
    (autoC : String → Bool × String) (nl : Newsletter) (auto_confirm : Bool)
    (st : BotState)
    (h : st.ledger.unsubscribed ⊆ st.ledger.processed_ids) :
    (unsubscribe fetch autoC nl auto_confirm st).2.ledger.unsubscribed ⊆
      (unsubscribe fetch autoC nl auto_confirm st).2.ledger.processed_ids := by
  intro x hx
  have hx' := (mem_updateLedger_unsubscribed_iff nl.id x
    ((nl.unsubscribe_links.http.map (processLink fetch autoC auto_confirm)).any
      (fun r => r.status == Status.success)) st.ledger).1 hx
  show x ∈ (updateLedger nl.id
    ((nl.unsubscribe_links.http.map (processLink fetch autoC auto_confirm)).any
      (fun r => r.status == Status.success)) st.ledger).processed_ids
  rw [mem_updateLedger_processed_iff]
  rcases hx' with hx' | ⟨-, rfl⟩
  · exact Or.inl (h hx')
  · exact Or.inr rfl

/-- Witness for C3 at a concrete input. -/
theorem unsubscribe_preserves_subset_invariant_witness :
    (Ledger.mk ["a"] ["a"]).unsubscribed ⊆ (Ledger.mk ["a"] ["a"]).processed_ids
    ∧ ((unsubscribe (fun _ => FetchOutcome.timeout) (fun _ => (false, ""))
          { id := "n1", message_id := "", fromDisplay := "", from_email := "",
            subject := "", date := "", folder := "INBOX",
            unsubscribe_links := { http := ["https://x.test/u"], mailto := [] },
            processed := false, unsubscribed := false } true
          { ledger := Ledger.mk ["a"] ["a"],
            disk := Ledger.mk ["a"] ["a"] }).2.ledger.unsubscribed ⊆
        (unsubscribe (fun _ => FetchOutcome.timeout) (fun _ => (false, ""))
          { id := "n1", message_id := "", fromDisplay := "", from_email := "",
            subject := "", date := "", folder := "INBOX",
            unsubscribe_links := { http := ["https://x.test/u"], mailto := [] },
            processed := false, unsubscribed := false } true
          { ledger := Ledger.mk ["a"] ["a"],
            disk := Ledger.mk ["a"] ["a"] }).2.ledger.processed_ids) := by
  refine ⟨fun x hx => hx, ?_⟩
  exact unsubscribe_preserves_subset_invariant _ _ _ _ _ (fun x hx => hx)

/-- **C10**: an `unsubscribe` call never introduces duplicates into the
ledger's id lists: an id already present is not appended a second time. -/
theorem unsubscribe_preserves_nodup (fetch : String → FetchOutcome)
    (autoC : String → Bool × String) (nl : Newsletter) (auto_confirm : Bool)
    (st : BotState) (h1 : st.ledger.processed_ids.Nodup)
    (h2 : st.ledger.unsubscribed.Nodup) :
    (unsubscribe fetch autoC nl auto_confirm st).2.ledger.processed_ids.Nodup
    ∧ (unsubscribe fetch autoC nl auto_confirm st).2.ledger.unsubscribed.Nodup := by
  constructor
  · show (updateLedger nl.id _ st.ledger).processed_ids.Nodup
    rw [updateLedger_processed_ids]
    by_cases hp : nl.id ∈ st.ledger.processed_ids
    · simpa [hp] using h1
    · simpa [hp] using nodup_append_singleton h1 hp
  · show (updateLedger nl.id _ st.ledger).unsubscribed.Nodup
    rw [updateLedger_unsubscribed]
    split
    · rename_i hu
      exact nodup_append_singleton h2 hu.2
    · exact h2

/-- Witness for C10 at a concrete input. -/
theorem unsubscribe_preserves_nodup_witness :
    (Ledger.mk ["a", "n1"] ["a"]).processed_ids.Nodup
    ∧ (Ledger.mk ["a", "n1"] ["a"]).unsubscribed.Nodup
    ∧ ((unsubscribe (fun _ => FetchOutcome.response 200
            { text := "you are now unsubscribed", hasForm := false,
              hasConfirmButton := false, hasConfirmAnchor := false })
          (fun _ => (false, ""))
          { id := "n1", message_id := "", fromDisplay := "", from_email := "",
            subject := "", date := "", folder := "INBOX",
            unsubscribe_links := { http := ["https://x.test/u"], mailto := [] },
            processed := false, unsubscribed := false } true
          { ledger := Ledger.mk ["a", "n1"] ["a"],
            disk := Ledger.mk ["a", "n1"] ["a"] }).2.ledger.processed_ids.Nodup
        ∧ (unsubscribe (fun _ => FetchOutcome.response 200
            { text := "you are now unsubscribed", hasForm := false,
              hasConfirmButton := false, hasConfirmAnchor := false })
          (fun _ => (false, ""))
          { id := "n1", message_id := "", fromDisplay := "", from_email := "",
            subject := "", date := "", folder := "INBOX",
            unsubscribe_links := { http := ["https://x.test/u"], mailto := [] },
            processed := false, unsubscribed := false } true
          { ledger := Ledger.mk ["a", "n1"] ["a"],
            disk := Ledger.mk ["a", "n1"] ["a"] }).2.ledger.unsubscribed.Nodup) := by
  refine ⟨by decide, by decide, ?_⟩
  exact unsubscribe_preserves_nodup _ _ _ _ _ (by decide) (by decide)

/-! ## Aggregation (C1) -/

theorem find?_append_first {α : Type} {p : α → Bool} (s t : List α) (r : α)
    (hs : ∀ x ∈ s, p x = false) (hr : p r = true) :
    (s ++ r :: t).find? p = some r := by
  induction s with
  | nil => simp [List.find?_cons, hr]
  | cons a s ih =>
    have ha := hs a (List.mem_cons_self a s)
    simp only [List.cons_append, List.find?_cons, ha]
    exact ih (fun x hx => hs x (List.mem_cons_of_mem a hx))

theorem containsSub_cons (h : Char) (t n : List Char) :
    containsSub (h :: t) n = (n.isPrefixOf (h :: t) || containsSub t n) := rfl

theorem isPrefixOf_self (l : List Char) : l.isPrefixOf l = true := by
  induction l with
  | nil => rfl
  | cons c cs ih => simp [List.isPrefixOf, ih]

theorem containsSub_append_self (a b : List Char) :
    containsSub (a ++ b) b = true := by
  induction a with
  | nil =>
    rw [List.nil_append]
    cases b with
    | nil => rfl
    | cons c cs =>
      rw [containsSub_cons, isPrefixOf_self, Bool.true_or]
  | cons x a ih =>
    rw [List.cons_append, containsSub_cons, ih, Bool.or_true]

/-- **C1**: the newsletter-level outcome aggregated in `app.py` follows the
precedence success > needs_confirmation > error, with the first
needs-confirmation link reported in the message, the first (error) result's
message reported when no higher outcome exists, and a "no links found"
message when the result list is empty. -/
theorem aggregate_spec (results : List AttemptResult) :
    ((∃ r ∈ results, r.status = Status.success) →
      (aggregate results).1 = Status.success)
    ∧ (∀ s r t, results = s ++ r :: t →
        r.status = Status.needs_confirmation →
        (∀ x ∈ results, x.status ≠ Status.success) →
        (∀ x ∈ s, x.status ≠ Status.needs_confirmation) →
        aggregate results = (Status.needs_confirmation,
          "Manuelle Bestätigung erforderlich" ++ " - " ++ r.link)
        ∧ strContains (aggregate results).2 r.link = true)
    ∧ (∀ r0 t, results = r0 :: t →
        (∀ x ∈ results, x.status = Status.error) →
        aggregate results = (Status.error, r0.message))
    ∧ (results = [] →
        aggregate results = (Status.error, "Keine Abmelde-Links gefunden")) := by
  refine ⟨?_, ?_, ?_, ?_⟩
  · rintro ⟨r, hr, hst⟩
    have hany : results.any (fun r => r.status == Status.success) = true :=
      List.any_eq_true.2 ⟨r, hr, by simp [hst]⟩
    cases results with
    | nil => cases hr
    | cons r0 rest => simp [aggregate, hany]
  · intro s r t heq hr hnos hfirst
    have hanys : results.any (fun r => r.status == Status.success) = false := by
      rw [List.any_eq_false]
      intro x hx
      simp [hnos x hx]
    have hmem : r ∈ results := by
      rw [heq]
      exact List.mem_append_right s (List.mem_cons_self r t)
    have hanyn : results.any
        (fun r => r.status == Status.needs_confirmation) = true :=
      List.any_eq_true.2 ⟨r, hmem, by simp [hr]⟩
    have hfind : results.find?
        (fun r => r.status == Status.needs_confirmation) = some r := by
      rw [heq]
      exact find?_append_first s t r
        (fun x hx => by simp [hfirst x hx]) (by simp [hr])
    cases hres : results with
    | nil => rw [hres] at heq; cases s <;> cases heq
    | cons r0 rest =>
      rw [hres] at hanys hanyn hfind
      refine ⟨by simp [aggregate, hanys, hanyn, hfind], ?_⟩
      have hmsg : (aggregate (r0 :: rest)).2 =
          "Manuelle Bestätigung erforderlich" ++ " - " ++ r.link := by
        simp [aggregate, hanys, hanyn, hfind]
      rw [hmsg, strContains]
      rw [show ("Manuelle Bestätigung erforderlich" ++ " - " ++ r.link).data
        = ("Manuelle Bestätigung erforderlich" ++ " - ").data ++ r.link.data
        from by simp]
      exact containsSub_append_self _ _
  · intro r0 t heq hall
    have hanys : results.any (fun r => r.status == Status.success) = false := by
      rw [List.any_eq_false]
      intro x hx
      simp [hall x hx]
    have hanyn : results.any
        (fun r => r.status == Status.needs_confirmation) = false := by
      rw [List.any_eq_false]
      intro x hx
      simp [hall x hx]
    rw [heq] at hanys hanyn ⊢
    simp [aggregate, hanys, hanyn]
  · intro h
    rw [h]
    rfl

/-- Witness for C1: each aggregation branch at a concrete result list. -/
theorem aggregate_spec_witness :
    (aggregate [⟨"L1", Status.error, "HTTP 404"⟩,
        ⟨"L2", Status.success, "Erfolgreich abgemeldet"⟩]).1 = Status.success
    ∧ aggregate [⟨"L1", Status.error, "HTTP 404"⟩,
        ⟨"L2", Status.needs_confirmation, "m1"⟩,
        ⟨"L3", Status.needs_confirmation, "m2"⟩]
      = (Status.needs_confirmation,
          "Manuelle Bestätigung erforderlich" ++ " - " ++ "L2")
    ∧ aggregate [⟨"L1", Status.error, "HTTP 404"⟩,
        ⟨"L2", Status.error, "Zeitüberschreitung"⟩]
      = (Status.error, "HTTP 404")
    ∧ aggregate [] = (Status.error, "Keine Abmelde-Links gefunden") := by
  refine ⟨?_, ?_, ?_, ?_⟩
  · exact (aggregate_spec _).1
      ⟨⟨"L2", Status.success, "Erfolgreich abgemeldet"⟩, by decide, rfl⟩
  · exact ((aggregate_spec _).2.1 [⟨"L1", Status.error, "HTTP 404"⟩]
      ⟨"L2", Status.needs_confirmation, "m1"⟩
      [⟨"L3", Status.needs_confirmation, "m2"⟩] rfl rfl
      (by decide) (by decide)).1
  · exact (aggregate_spec _).2.2.1 ⟨"L1", Status.error, "HTTP 404"⟩
      [⟨"L2", Status.error, "Zeitüberschreitung"⟩] rfl (by decide)
  · exact (aggregate_spec _).2.2.2 rfl

/-! ## Timeout handling (C7) -/

/-- Counterexample to C7 as stated: a timed-out fetch yields an `error`
result, but its message is the German "Zeitüberschreitung", which does not
contain the substring "timeout" (not even after lowercasing). -/
theorem timeout_message_counterexample :
    (unsubscribe (fun _ => FetchOutcome.timeout) (fun _ => (false, ""))
        { id := "n1", message_id := "", fromDisplay := "", from_email := "",
          subject := "", date := "", folder := "INBOX",
          unsubscribe_links := { http := ["https://x.test/u"], mailto := [] },
          processed := false, unsubscribed := false } true
        { ledger := Ledger.mk [] [], disk := Ledger.mk [] [] }).1
      = [{ link := "https://x.test/u", status := Status.error,
            message := "Zeitüberschreitung" }]
    ∧ strContains "Zeitüberschreitung" "timeout" = false
    ∧ strContains (lowerString "Zeitüberschreitung") "timeout" = false := by
  decide

/-- **C7 (amended)**: a timed-out fetch yields an `error` result carrying
the timeout-specific message "Zeitüberschreitung"; the remaining links are
still attempted (the result list covers every link in order); the id is
marked processed, and when no link result succeeded the `unsubscribed`
list is left unchanged (so a not-yet-unsubscribed newsletter stays
not-unsubscribed). -/
theorem unsubscribe_timeout_spec (fetch : String → FetchOutcome)
    (autoC : String → Bool × String) (auto_confirm : Bool) (st : BotState)
    (nl : Newsletter) (s t : List String) (l : String)
    (hlinks : nl.unsubscribe_links.http = s ++ l :: t)
    (htime : fetch l = FetchOutcome.timeout) :
    (unsubscribe fetch autoC nl auto_confirm st).1 =
      s.map (processLink fetch autoC auto_confirm)
        ++ { link := l, status := Status.error,
              message := "Zeitüberschreitung" }
          :: t.map (processLink fetch autoC auto_confirm)
    ∧ (unsubscribe fetch autoC nl auto_confirm st).1.length
        = nl.unsubscribe_links.http.length
    ∧ nl.id ∈ (unsubscribe fetch autoC nl auto_confirm st).2.ledger.processed_ids
    ∧ ((∀ r ∈ (unsubscribe fetch autoC nl auto_confirm st).1,
          r.status ≠ Status.success) →
        (unsubscribe fetch autoC nl auto_confirm st).2.ledger.unsubscribed
          = st.ledger.unsubscribed) := by
  have hlink : processLink fetch autoC auto_confirm l =
      { link := l, status := Status.error, message := "Zeitüberschreitung" } := by
    simp [processLink, htime]
  refine ⟨?_, ?_, mem_updateLedger_processed _ _ _, ?_⟩
  · show nl.unsubscribe_links.http.map (processLink fetch autoC auto_confirm) = _
    rw [hlinks, List.map_append, List.map_cons, hlink]
  · show (nl.unsubscribe_links.http.map
      (processLink fetch autoC auto_confirm)).length = _
    rw [List.length_map]
  · intro hnos
    have hany : (nl.unsubscribe_links.http.map
        (processLink fetch autoC auto_confirm)).any
          (fun r => r.status == Status.success) = false := by
      rw [List.any_eq_false]
      intro x hx
      simp [hnos x hx]
    show (updateLedger nl.id _ st.ledger).unsubscribed = _
    rw [hany, updateLedger_unsubscribed]
    simp

/-- Witness for C7 (amended) at a concrete input: first link times out,
the second fails with a connection error; both are reported, the
newsletter ends processed and not unsubscribed. -/
theorem unsubscribe_timeout_spec_witness :
    ({ id := "n1", message_id := "", fromDisplay := "", from_email := "",
        subject := "", date := "", folder := "INBOX",
        unsubscribe_links :=
          { http := ["https://a.test/1", "https://b.test/2"], mailto := [] },
        processed := false, unsubscribed := false }
          : Newsletter).unsubscribe_links.http
      = [] ++ "https://a.test/1" :: ["https://b.test/2"]
    ∧ (fun u => if u = "https://a.test/1" then FetchOutcome.timeout
        else FetchOutcome.exn "Verbindungsfehler") "https://a.test/1"
      = FetchOutcome.timeout
    ∧ (unsubscribe
        (fun u => if u = "https://a.test/1" then FetchOutcome.timeout
          else FetchOutcome.exn "Verbindungsfehler")
        (fun _ => (false, ""))
        { id := "n1", message_id := "", fromDisplay := "", from_email := "",
          subject := "", date := "", folder := "INBOX",
          unsubscribe_links :=
            { http := ["https://a.test/1", "https://b.test/2"], mailto := [] },
          processed := false, unsubscribed := false } true
        { ledger := Ledger.mk [] [], disk := Ledger.mk [] [] }).1.length = 2
    ∧ (unsubscribe
        (fun u => if u = "https://a.test/1" then FetchOutcome.timeout
          else FetchOutcome.exn "Verbindungsfehler")
        (fun _ => (false, ""))
        { id := "n1", message_id := "", fromDisplay := "", from_email := "",
          subject := "", date := "", folder := "INBOX",
          unsubscribe_links :=
            { http := ["https://a.test/1", "https://b.test/2"], mailto := [] },
          processed := false, unsubscribed := false } true
        { ledger := Ledger.mk [] [], disk := Ledger.mk [] [] }).2.ledger.unsubscribed
      = [] := by
  refine ⟨rfl, rfl, ?_, ?_⟩
  · exact (unsubscribe_timeout_spec _ _ _ _ _ [] ["https://b.test/2"]
      "https://a.test/1" rfl rfl).2.1
  · exact (unsubscribe_timeout_spec _ _ _ _ _ [] ["https://b.test/2"]
      "https://a.test/1" rfl rfl).2.2.2 (by decide)

/-! ## Needs-confirmation handling (C8) -/

/-- Counterexample to C8 as stated: with a form on the page, no success
phrase and `auto_confirm = false`, the per-link result is
`needs_confirmation`, but its message is the fixed string "Manuelle
Bestätigung auf der Website erforderlich", which does not include the
link. -/
theorem needs_confirmation_message_counterexample :
    (unsubscribe
        (fun _ => FetchOutcome.response 200
          { text := "<html><form action=/u method=post></form></html>",
            hasForm := true, hasConfirmButton := false,
            hasConfirmAnchor := false })
        (fun _ => (false, ""))
        { id := "n1", message_id := "", fromDisplay := "", from_email := "",
          subject := "", date := "", folder := "INBOX",
          unsubscribe_links := { http := ["https://x.test/u"], mailto := [] },
          processed := false, unsubscribed := false } false
        { ledger := Ledger.mk [] [], disk := Ledger.mk [] [] }).1
      = [{ link := "https://x.test/u", status := Status.needs_confirmation,
            message := "Manuelle Bestätigung auf der Website erforderlich" }]
    ∧ strContains "Manuelle Bestätigung auf der Website erforderlich"
        "https://x.test/u" = false := by
  decide

/-- **C8 (amended)**: a 200 page with a confirmation affordance and no
success phrase, with `auto_confirm = false`, yields a `needs_confirmation`
result whose `link` field carries the link (the message is the fixed
manual-confirmation string; the link is reported alongside it in the
result, and `app.py` appends it to the newsletter-level message). -/
theorem unsubscribe_needs_confirmation_spec (fetch : String → FetchOutcome)
    (autoC : String → Bool × String) (st : BotState) (nl : Newsletter)
    (l : String) (body : PageBody)
    (hmem : l ∈ nl.unsubscribe_links.http)
    (hfetch : fetch l = FetchOutcome.response 200 body)
    (hnos : alreadyUnsubscribed body.text = false)
    (haff : (body.hasForm || body.hasConfirmButton || body.hasConfirmAnchor)
      = true) :
    processLink fetch autoC false l =
      { link := l, status := Status.needs_confirmation,
        message := "Manuelle Bestätigung auf der Website erforderlich" }
    ∧ { link := l, status := Status.needs_confirmation,
        message := "Manuelle Bestätigung auf der Website erforderlich" }
      ∈ (unsubscribe fetch autoC nl false st).1 := by
  have hlink : processLink fetch autoC false l =
      { link := l, status := Status.needs_confirmation,
        message := "Manuelle Bestätigung auf der Website erforderlich" } := by
    simp [processLink, hfetch, hnos, haff]
  refine ⟨hlink, ?_⟩
  show _ ∈ nl.unsubscribe_links.http.map (processLink fetch autoC false)
  rw [← hlink]
  exact List.mem_map_of_mem _ hmem

/-- Witness for C8 (amended) at a concrete input. -/
theorem unsubscribe_needs_confirmation_spec_witness :
    "https://x.test/u" ∈
      ({ http := ["https://x.test/u"], mailto := [] } : UnsubLinks).http
    ∧ (fun _ => FetchOutcome.response 200
        { text := "<html><form action=/u method=post></form></html>",
          hasForm := true, hasConfirmButton := false,
          hasConfirmAnchor := false }) "https://x.test/u"
      = FetchOutcome.response 200
        { text := "<html><form action=/u method=post></form></html>",
          hasForm := true, hasConfirmButton := false,
          hasConfirmAnchor := false }
    ∧ alreadyUnsubscribed
        "<html><form action=/u method=post></form></html>" = false
    ∧ processLink
        (fun _ => FetchOutcome.response 200
          { text := "<html><form action=/u method=post></form></html>",
            hasForm := true, hasConfirmButton := false,
            hasConfirmAnchor := false })
        (fun _ => (false, "")) false "https://x.test/u"
      = { link := "https://x.test/u", status := Status.needs_confirmation,
          message := "Manuelle Bestätigung auf der Website erforderlich" } := by
  refine ⟨by decide, rfl, by decide, ?_⟩
  exact (unsubscribe_needs_confirmation_spec
    (fun _ => FetchOutcome.response 200
      { text := "<html><form action=/u method=post></form></html>",
        hasForm := true, hasConfirmButton := false, hasConfirmAnchor := false })
    (fun _ => (false, ""))
    { ledger := Ledger.mk [] [], disk := Ledger.mk [] [] }
    { id := "n1", message_id := "", fromDisplay := "", from_email := "",
      subject := "", date := "", folder := "INBOX",
      unsubscribe_links := { http := ["https://x.test/u"], mailto := [] },
      processed := false, unsubscribed := false }
    "https://x.test/u" _ (by decide) rfl (by decide) (by decide)).1

/-! ## Idempotence (C9) -/

/-- Counterexample to C9 as stated: a newsletter with an empty web-link
list vacuously satisfies "all of whose web links return a 200 page with a
success phrase", yet the call yields no success result at all. -/
theorem idempotent_empty_links_counterexample :
    (∀ l ∈ (Newsletter.mk "n1" "" "" "" "" "" "INBOX"
        (UnsubLinks.mk [] []) false false).unsubscribe_links.http,
      ∃ body : PageBody,
        (fun _ => FetchOutcome.timeout) l = FetchOutcome.response 200 body
        ∧ alreadyUnsubscribed body.text = true)
    ∧ ¬∃ r ∈ (unsubscribe (fun _ => FetchOutcome.timeout)
        (fun _ => (false, ""))
        (Newsletter.mk "n1" "" "" "" "" "" "INBOX"
          (UnsubLinks.mk [] []) false false) true
        { ledger := Ledger.mk [] [], disk := Ledger.mk [] [] }).1,
      r.status = Status.success := by
  constructor
  · intro l hl
    simp at hl
  · show ¬∃ r ∈ ([] : List AttemptResult), r.status = Status.success
    simp

/-- **C9 (amended)**: for a newsletter with at least one web link, all of
whose web links return a 200 page containing an "already unsubscribed"
success phrase, both the first and the second `unsubscribe` call return
only success results (and at least one), and the second call leaves the
size of the ledger's `unsubscribed` list unchanged. -/
theorem unsubscribe_idempotent_spec (fetch : String → FetchOutcome)
    (autoC : String → Bool × String) (auto_confirm : Bool) (st : BotState)
    (nl : Newsletter)
    (hne : nl.unsubscribe_links.http ≠ [])
    (hall : ∀ l ∈ nl.unsubscribe_links.http, ∃ body : PageBody,
      fetch l = FetchOutcome.response 200 body
      ∧ alreadyUnsubscribed body.text = true) :
    (∀ r ∈ (unsubscribe fetch autoC nl auto_confirm st).1,
      r.status = Status.success)
    ∧ (unsubscribe fetch autoC nl auto_confirm st).1 ≠ []
    ∧ (∀ r ∈ (unsubscribe fetch autoC nl auto_confirm
        (unsubscribe fetch autoC nl auto_confirm st).2).1,
      r.status = Status.success)
    ∧ (unsubscribe fetch autoC nl auto_confirm
        (unsubscribe fetch autoC nl auto_confirm st).2).1 ≠ []
    ∧ (unsubscribe fetch autoC nl auto_confirm
        (unsubscribe fetch autoC nl auto_confirm st).2).2.ledger.unsubscribed.length
      = (unsubscribe fetch autoC nl auto_confirm st).2.ledger.unsubscribed.length := by
  have hres : ∀ l ∈ nl.unsubscribe_links.http,
      processLink fetch autoC auto_confirm l =
        { link := l, status := Status.success,
          message := "Erfolgreich abgemeldet" } := by
    intro l hl
    obtain ⟨body, hf, hu⟩ := hall l hl
    simp [processLink, hf, hu]
  have hall1 : ∀ r ∈ (unsubscribe fetch autoC nl auto_confirm st).1,
      r.status = Status.success := by
    intro r hr
    obtain ⟨l, hl, rfl⟩ := List.mem_map.1 hr
    rw [hres l hl]
  have hne1 : (unsubscribe fetch autoC nl auto_confirm st).1 ≠ [] := by
    show nl.unsubscribe_links.http.map (processLink fetch autoC auto_confirm) ≠ []
    simpa using hne
  have hany1 : ((unsubscribe fetch autoC nl auto_confirm st).1.any
      (fun r => r.status == Status.success)) = true := by
    obtain ⟨r, hr⟩ := List.exists_mem_of_ne_nil _ hne1
    exact List.any_eq_true.2 ⟨r, hr, by simp [hall1 r hr]⟩
  have hmem1 : nl.id ∈
      (unsubscribe fetch autoC nl auto_confirm st).2.ledger.unsubscribed := by
    exact (mem_updateLedger_unsubscribed_iff nl.id nl.id _ st.ledger).2
      (Or.inr ⟨hany1, rfl⟩)
  refine ⟨hall1, hne1, hall1, hne1, ?_⟩
  show (updateLedger nl.id _
    (unsubscribe fetch autoC nl auto_confirm st).2.ledger).unsubscribed.length = _
  rw [updateLedger_unsubscribed]
  simp [hmem1]

/-- Witness for C9 (amended) at a concrete input. -/
theorem unsubscribe_idempotent_spec_witness :
    ({ http := ["https://x.test/u"], mailto := [] } : UnsubLinks).http ≠ []
    ∧ (∀ l ∈ ({ http := ["https://x.test/u"], mailto := [] }
        : UnsubLinks).http,
      ∃ body : PageBody,
        (fun _ => FetchOutcome.response 200
          { text := "You are now unsubscribed from our list.",
            hasForm := false, hasConfirmButton := false,
            hasConfirmAnchor := false }) l = FetchOutcome.response 200 body
        ∧ alreadyUnsubscribed body.text = true)
    ∧ (unsubscribe
        (fun _ => FetchOutcome.response 200
          { text := "You are now unsubscribed from our list.",
            hasForm := false, hasConfirmButton := false,
            hasConfirmAnchor := false })
        (fun _ => (false, ""))
        { id := "n1", message_id := "", fromDisplay := "", from_email := "",
          subject := "", date := "", folder := "INBOX",
          unsubscribe_links := { http := ["https://x.test/u"], mailto := [] },
          processed := false, unsubscribed := false } true
        ((unsubscribe
          (fun _ => FetchOutcome.response 200
            { text := "You are now unsubscribed from our list.",
              hasForm := false, hasConfirmButton := false,
              hasConfirmAnchor := false })
          (fun _ => (false, ""))
          { id := "n1", message_id := "", fromDisplay := "", from_email := "",
            subject := "", date := "", folder := "INBOX",
            unsubscribe_links := { http := ["https://x.test/u"], mailto := [] },
            processed := false, unsubscribed := false } true
          { ledger := Ledger.mk [] [],
            disk := Ledger.mk [] [] }).2)).2.ledger.unsubscribed.length
      = (unsubscribe
          (fun _ => FetchOutcome.response 200
            { text := "You are now unsubscribed from our list.",
              hasForm := false, hasConfirmButton := false,
              hasConfirmAnchor := false })
          (fun _ => (false, ""))
          { id := "n1", message_id := "", fromDisplay := "", from_email := "",
            subject := "", date := "", folder := "INBOX",
            unsubscribe_links := { http := ["https://x.test/u"], mailto := [] },
            processed := false, unsubscribed := false } true
          { ledger := Ledger.mk [] [],
            disk := Ledger.mk [] [] }).2.ledger.unsubscribed.length := by
  refine ⟨by decide, fun l _ => ⟨_, rfl, by decide⟩, ?_⟩
  exact (unsubscribe_idempotent_spec _ _ _ _ _ (by decide)
    (fun l _ => ⟨_, rfl, by decide⟩)).2.2.2.2

/-! ## Classification (C4) -/

/-- **C4**: the scanner builds a newsletter record for a message iff its
`List-Unsubscribe` header is present and non-empty; the body never
influences the decision, and a folder holding only a message without the
header scans to no records. -/
theorem scan_classification_spec (hash : String → String) (ledger : Ledger)
    (folder_name : String) (msg : Message) :
    ((processMessage hash ledger folder_name msg).isSome ↔
      ∃ s, msg.listUnsubscribe = some s ∧ s ≠ "")
    ∧ (∀ b : String, processMessage hash ledger folder_name
        { msg with body := b } = processMessage hash ledger folder_name msg)
    ∧ (msg.listUnsubscribe = none →
        scan_folder hash (fun _ => [msg]) ledger folder_name none = []) := by
  refine ⟨?_, ?_, ?_⟩
  · cases h : msg.listUnsubscribe with
    | none => simp [processMessage, h]
    | some lu =>
      by_cases he : lu = "" <;> simp [processMessage, h, he]
  · intro b
    cases msg
    rfl
  · intro h
    simp [scan_folder, applyLimit, processMessage, h]

/-- Witness for C4 at a concrete input: a message without a
`List-Unsubscribe` header yields no record. -/
theorem scan_classification_spec_witness :
    (Message.mk "M1" none "A <a@b.test>" "S" "D" "BODY").listUnsubscribe = none
    ∧ scan_folder (fun s => s)
        (fun _ => [Message.mk "M1" none "A <a@b.test>" "S" "D" "BODY"])
        (Ledger.mk [] []) "INBOX" none = [] := by
  refine ⟨rfl, ?_⟩
  exact (scan_classification_spec (fun s => s) (Ledger.mk [] []) "INBOX"
    (Message.mk "M1" none "A <a@b.test>" "S" "D" "BODY")).2.2 rfl

/-! ## Deduplication in `scan_all` (C5) -/

theorem dedupBySender_eq_firstOccurDedup (l : List Newsletter)
    (seen : List String) :
    dedupBySender l seen =
      firstOccurDedup
        (l.filter (fun x => decide (lowerString x.from_email ∉ seen))) := by
  induction l generalizing seen with
  | nil =>
    rw [List.filter_nil, firstOccurDedup]
    rfl
  | cons nl rest ih =>
    by_cases h : lowerString nl.from_email ∈ seen
    · rw [show dedupBySender (nl :: rest) seen = dedupBySender rest seen
        from by simp [dedupBySender, h]]
      rw [ih seen]
      congr 1
      simp [List.filter_cons, h]
    · rw [show dedupBySender (nl :: rest) seen
        = nl :: dedupBySender rest (lowerString nl.from_email :: seen)
        from by simp [dedupBySender, h]]
      rw [ih (lowerString nl.from_email :: seen)]
      rw [show (nl :: rest).filter
          (fun x => decide (lowerString x.from_email ∉ seen))
        = nl :: rest.filter (fun x => decide (lowerString x.from_email ∉ seen))
        from by simp [List.filter_cons, h]]
      rw [firstOccurDedup]
      congr 1
      rw [List.filter_filter]
      apply congrArg
      apply List.filter_congr
      intro x _
      by_cases hx1 : lowerString x.from_email = lowerString nl.from_email <;>
        by_cases hx2 : lowerString x.from_email ∈ seen <;> simp [hx1, hx2]

/-- **C5**: `scan_all` scans `"INBOX"` then `"Junk"`, concatenates the
records in that order, and deduplicates by lowercased sender address with
the first occurrence winning (every later record with the same lowercased
sender, even from the other folder, is dropped); concretely, two messages
from `Sender@Example.com` (INBOX) and `sender@example.com` (Junk) yield
exactly the INBOX record. -/
theorem scan_all_spec (hash : String → String)
    (mailbox : String → List Message) (ledger : Ledger)
    (limit_per_folder : Option Nat) :
    scan_all hash mailbox ledger limit_per_folder =
      firstOccurDedup
        (scan_folder hash mailbox ledger "INBOX" limit_per_folder ++
          scan_folder hash mailbox ledger "Junk" limit_per_folder)
    ∧ scan_all (fun s => s)
        (fun f =>
          if f = "INBOX" then
            [Message.mk "M1" (some "<https://a.test/u>")
              "A <Sender@Example.com>" "S1" "D1" ""]
          else if f = "Junk" then
            [Message.mk "M2" (some "<https://b.test/u>")
              "B <sender@example.com>" "S2" "D2" ""]
          else []) (Ledger.mk [] []) none
      = [Newsletter.mk "M1" "M1" "A <Sender@Example.com>" "Sender@Example.com"
          "S1" "D1" "INBOX" (UnsubLinks.mk ["https://a.test/u"] [])
          false false] := by
  constructor
  · show dedupBySender _ [] = _
    rw [dedupBySender_eq_firstOccurDedup]
    congr 1
    apply List.filter_eq_self.2
    intro x _
    simp
  · decide

/-! ## Link extraction (C6)

Characterization of the two findall scans on well-formed headers. -/

theorem isPrefixOf_append_self (p x : List Char) :
    p.isPrefixOf (p ++ x) = true := by
  induction p with
  | nil => simp [List.isPrefixOf]
  | cons c cs ih => simp [List.isPrefixOf, ih]

theorem isPrefixOf_append_gt_false (p : List Char) (hp : '>' ∉ p) :
    ∀ u s, p.isPrefixOf u = false → p.isPrefixOf (u ++ '>' :: s) = false := by
  induction p with
  | nil => intro u s h; simp [List.isPrefixOf] at h
  | cons a p ih =>
    intro u s h
    cases u with
    | nil =>
      have ha : a ≠ '>' := fun hc => hp (hc ▸ List.mem_cons_self a p)
      simp [List.isPrefixOf, ha]
    | cons b u' =>
      simp only [List.isPrefixOf, Bool.and_eq_false_iff] at h
      rcases h with h | h
      · simp [List.isPrefixOf, h]
      · have := ih (fun hc => hp (List.mem_cons_of_mem a hc)) u' s h
        simp [List.isPrefixOf, this]

theorem takeWhile_append_gt (b s : List Char) (hb : '>' ∉ b) :
    (b ++ '>' :: s).takeWhile (fun c => !(c == '>')) = b := by
  induction b with
  | nil => simp [List.takeWhile]
  | cons c cs ih =>
    have hc : c ≠ '>' := fun hc => hb (hc ▸ List.mem_cons_self c cs)
    simp only [List.cons_append, List.takeWhile_cons]
    rw [if_pos (by simp [hc])]
    rw [ih (fun h => hb (List.mem_cons_of_mem c h))]

theorem dropWhile_append_gt (b s : List Char) (hb : '>' ∉ b) :
    (b ++ '>' :: s).dropWhile (fun c => !(c == '>')) = '>' :: s := by
  induction b with
  | nil => simp [List.dropWhile]
  | cons c cs ih =>
    have hc : c ≠ '>' := fun hc => hb (hc ▸ List.mem_cons_self c cs)
    simp only [List.cons_append, List.dropWhile_cons]
    rw [if_pos (by simp [hc])]
    exact ih (fun h => hb (List.mem_cons_of_mem c h))

theorem matchSchemes_nil_eq (s : List Char) : matchSchemes [] s = none := rfl

theorem matchSchemes_cons_skip (p : List Char) (ps : List (List Char))
    (s : List Char) (h : p.isPrefixOf s = false) :
    matchSchemes (p :: ps) s = matchSchemes ps s := by
  simp [matchSchemes, h]

theorem matchSchemes_cons_found (p : List Char) (ps : List (List Char))
    (b s : List Char) (hb : b ≠ []) (hbgt : '>' ∉ b) :
    matchSchemes (p :: ps) ((p ++ b) ++ '>' :: s) = some (p ++ b, s) := by
  have hpre : p.isPrefixOf ((p ++ b) ++ '>' :: s) = true := by
    rw [List.append_assoc]
    exact isPrefixOf_append_self p _
  have hdrop : ((p ++ b) ++ '>' :: s).drop p.length = b ++ '>' :: s := by
    rw [List.append_assoc]
    exact List.drop_left p _
  simp only [matchSchemes, hpre, if_pos, hdrop,
    takeWhile_append_gt b s hbgt, dropWhile_append_gt b s hbgt]
  simp [List.isEmpty_iff, hb]

theorem matchSchemes_cons_eq (p : List Char) (ps : List (List Char))
    (s : List Char) : matchSchemes (p :: ps) s =
      if p.isPrefixOf s then
        match (s.drop p.length).dropWhile (fun c => !(c == '>')) with
        | '>' :: rem =>
          if ((s.drop p.length).takeWhile (fun c => !(c == '>'))).isEmpty then
            none
          else
            some (p ++ (s.drop p.length).takeWhile (fun c => !(c == '>')), rem)
        | _ => none
      else matchSchemes ps s := rfl

theorem matchSchemes_rem_length (schemes : List (List Char)) (s g rem : List Char)
    (h : matchSchemes schemes s = some (g, rem)) : rem.length ≤ s.length := by
  induction schemes with
  | nil => cases h
  | cons p ps ih =>
    rw [matchSchemes_cons_eq] at h
    split at h
    · split at h
      · rename_i rem2 heq
        split at h
        · cases h
        · injection h with h
          injection h with h1 h2
          have hlt : rem2.length <
              ((s.drop p.length).dropWhile (fun c => !(c == '>'))).length := by
            rw [heq]
            simp
          have hle := (List.dropWhile_sublist
            (l := s.drop p.length) (fun c => !(c == '>'))).length_le
          have hds : (s.drop p.length).length ≤ s.length := by
            rw [List.length_drop]
            omega
          rw [← h2]
          omega
      · cases h
    · exact ih h

theorem findallAux_fuel_eq (schemes : List (List Char)) :
    ∀ f1 f2 s, s.length ≤ f1 → s.length ≤ f2 →
      findallAux schemes f1 s = findallAux schemes f2 s := by
  intro f1
  induction f1 with
  | zero =>
    intro f2 s h1 _
    have hs : s = [] := List.eq_nil_of_length_eq_zero (Nat.le_zero.1 h1)
    subst hs
    cases f2 <;> rfl
  | succ f1 ih =>
    intro f2 s h1 h2
    cases s with
    | nil => cases f2 <;> rfl
    | cons c rest =>
      cases f2 with
      | zero => simp at h2
      | succ f2 =>
        simp only [findallAux]
        by_cases hc : c = '<'
        · rw [if_pos hc, if_pos hc]
          cases hm : matchSchemes schemes rest with
          | none =>
            simp only []
            exact ih f2 rest (by simp at h1; omega) (by simp at h2; omega)
          | some gr =>
            obtain ⟨g, rem⟩ := gr
            have hrem := matchSchemes_rem_length schemes rest g rem hm
            simp only []
            rw [ih f2 rem (by simp at h1; omega) (by simp at h2; omega)]
        · rw [if_neg hc, if_neg hc]
          exact ih f2 rest (by simp at h1; omega) (by simp at h2; omega)

theorem findallAux_eq_findallL (schemes : List (List Char)) (f : Nat)
    (s : List Char) (h : s.length ≤ f) :
    findallAux schemes f s = findallL schemes s :=
  findallAux_fuel_eq schemes f s.length s h (Nat.le_refl _)

theorem findallL_cons_ne (schemes : List (List Char)) (c : Char)
    (t : List Char) (hc : c ≠ '<') :
    findallL schemes (c :: t) = findallL schemes t := by
  show findallAux schemes (t.length + 1) (c :: t) = _
  simp only [findallAux, if_neg hc]
  rfl

theorem findallL_no_lt (schemes : List (List Char)) (cs s : List Char)
    (h : '<' ∉ cs) : findallL schemes (cs ++ s) = findallL schemes s := by
  induction cs with
  | nil => rfl
  | cons c cs ih =>
    have hc : c ≠ '<' := fun hcc => h (hcc ▸ List.mem_cons_self c cs)
    rw [List.cons_append, findallL_cons_ne schemes c _ hc]
    exact ih (fun hm => h (List.mem_cons_of_mem c hm))

theorem findallL_angle_found (schemes : List (List Char)) (u s : List Char)
    (hm : matchSchemes schemes (u ++ '>' :: s) = some (u, s)) :
    findallL schemes ('<' :: u ++ '>' :: s) = u :: findallL schemes s := by
  show findallAux schemes ((u ++ '>' :: s).length + 1) ('<' :: (u ++ '>' :: s)) = _
  simp only [findallAux, if_pos rfl, hm]
  rw [findallAux_eq_findallL schemes _ s (by simp; omega)]
  rw [if_pos trivial]

theorem findallL_angle_none (schemes : List (List Char)) (u s : List Char)
    (hm : matchSchemes schemes (u ++ '>' :: s) = none) (hu : '<' ∉ u) :
    findallL schemes ('<' :: u ++ '>' :: s) = findallL schemes s := by
  show findallAux schemes ((u ++ '>' :: s).length + 1) ('<' :: (u ++ '>' :: s)) = _
  simp only [findallAux, if_pos rfl, hm]
  rw [if_pos trivial]
  show findallL schemes (u ++ '>' :: s) = _
  rw [show u ++ '>' :: s = (u ++ ['>']) ++ s from by simp]
  refine findallL_no_lt schemes _ s ?_
  intro hmem
  rcases List.mem_append.1 hmem with hmem | hmem
  · exact hu hmem
  · simp at hmem

/-! Scheme literal facts -/

theorem httpScheme_not_prefixOf_https (x : List Char) :
    httpScheme.isPrefixOf (httpsScheme ++ x) = false := by
  simp [httpScheme, httpsScheme, List.isPrefixOf]

theorem httpsScheme_not_prefixOf_http (x : List Char) :
    httpsScheme.isPrefixOf (httpScheme ++ x) = false := by
  simp [httpScheme, httpsScheme, List.isPrefixOf]

theorem httpScheme_not_prefixOf_mailto (x : List Char) :
    httpScheme.isPrefixOf (mailtoScheme ++ x) = false := by
  simp [httpScheme, mailtoScheme, List.isPrefixOf]

theorem httpsScheme_not_prefixOf_mailto (x : List Char) :
    httpsScheme.isPrefixOf (mailtoScheme ++ x) = false := by
  simp [httpsScheme, mailtoScheme, List.isPrefixOf]

theorem mailtoScheme_not_prefixOf_http (x : List Char) :
    mailtoScheme.isPrefixOf (httpScheme ++ x) = false := by
  simp [mailtoScheme, httpScheme, List.isPrefixOf]

theorem mailtoScheme_not_prefixOf_https (x : List Char) :
    mailtoScheme.isPrefixOf (httpsScheme ++ x) = false := by
  simp [mailtoScheme, httpsScheme, List.isPrefixOf]

theorem prefix_decomp (p u : List Char) (hpre : p.isPrefixOf u = true) :
    ∃ b, u = p ++ b := by
  obtain ⟨t, ht⟩ := List.isPrefixOf_iff_prefix.mp hpre
  exact ⟨t, ht.symm⟩

theorem matchSchemes_none_of_no_prefix (schemes : List (List Char))
    (u s : List Char)
    (h : ∀ p ∈ schemes, '>' ∉ p ∧ p.isPrefixOf u = false) :
    matchSchemes schemes (u ++ '>' :: s) = none := by
  induction schemes with
  | nil => rfl
  | cons p ps ih =>
    obtain ⟨hgt, hpre⟩ := h p (List.mem_cons_self p ps)
    rw [matchSchemes_cons_skip p ps _
      (isPrefixOf_append_gt_false p hgt u s hpre)]
    exact ih (fun q hq => h q (List.mem_cons_of_mem p hq))

/-- An http(s)-scheme URI (with a non-empty remainder and no `>`) is
captured whole by the http pass. -/
theorem matchSchemes_http_entry (u s : List Char) (hgt : '>' ∉ u)
    (hsch : (httpScheme.isPrefixOf u = true ∧ httpScheme.length < u.length)
      ∨ (httpsScheme.isPrefixOf u = true ∧ httpsScheme.length < u.length)) :
    matchSchemes httpSchemes (u ++ '>' :: s) = some (u, s) := by
  rcases hsch with ⟨hpre, hlen⟩ | ⟨hpre, hlen⟩
  · obtain ⟨b, rfl⟩ := prefix_decomp _ _ hpre
    have hb : b ≠ [] := by
      intro hb
      subst hb
      simp at hlen
    have hbgt : '>' ∉ b := fun hm => hgt (List.mem_append_right _ hm)
    exact matchSchemes_cons_found httpScheme [httpsScheme] b s hb hbgt
  · obtain ⟨b, rfl⟩ := prefix_decomp _ _ hpre
    have hb : b ≠ [] := by
      intro hb
      subst hb
      simp at hlen
    have hbgt : '>' ∉ b := fun hm => hgt (List.mem_append_right _ hm)
    rw [show httpSchemes = httpScheme :: [httpsScheme] from rfl]
    rw [matchSchemes_cons_skip _ _ _ (by
      rw [List.append_assoc]
      exact httpScheme_not_prefixOf_https _)]
    exact matchSchemes_cons_found httpsScheme [] b s hb hbgt

/-- A mailto-scheme URI is captured whole by the mailto pass. -/
theorem matchSchemes_mailto_entry (u s : List Char) (hgt : '>' ∉ u)
    (hpre : mailtoScheme.isPrefixOf u = true)
    (hlen : mailtoScheme.length < u.length) :
    matchSchemes mailtoSchemes (u ++ '>' :: s) = some (u, s) := by
  obtain ⟨b, rfl⟩ := prefix_decomp _ _ hpre
  have hb : b ≠ [] := by
    intro hb
    subst hb
    simp at hlen
  have hbgt : '>' ∉ b := fun hm => hgt (List.mem_append_right _ hm)
  exact matchSchemes_cons_found mailtoScheme [] b s hb hbgt

/-- A mailto-scheme URI is not captured by the http pass. -/
theorem matchSchemes_http_on_mailto (u s : List Char)
    (hpre : mailtoScheme.isPrefixOf u = true) :
    matchSchemes httpSchemes (u ++ '>' :: s) = none := by
  obtain ⟨b, rfl⟩ := prefix_decomp _ _ hpre
  refine matchSchemes_none_of_no_prefix _ _ _ ?_
  intro p hp
  simp only [httpSchemes, List.mem_cons] at hp
  rcases hp with rfl | rfl | hp
  · exact ⟨by decide, httpScheme_not_prefixOf_mailto b⟩
  · exact ⟨by decide, httpsScheme_not_prefixOf_mailto b⟩
  · exact absurd hp (List.not_mem_nil p)

/-- An http(s)-scheme URI is not captured by the mailto pass. -/
theorem matchSchemes_mailto_on_http (u s : List Char)
    (hsch : httpScheme.isPrefixOf u = true ∨ httpsScheme.isPrefixOf u = true) :
    matchSchemes mailtoSchemes (u ++ '>' :: s) = none := by
  refine matchSchemes_none_of_no_prefix _ _ _ ?_
  intro p hp
  simp only [mailtoSchemes, List.mem_cons] at hp
  rcases hp with rfl | hp
  case inr => exact absurd hp (List.not_mem_nil p)
  rcases hsch with hpre | hpre
  · obtain ⟨b, rfl⟩ := prefix_decomp _ _ hpre
    exact ⟨by decide, mailtoScheme_not_prefixOf_http b⟩
  · obtain ⟨b, rfl⟩ := prefix_decomp _ _ hpre
    exact ⟨by decide, mailtoScheme_not_prefixOf_https b⟩

/-! Well-formed entries: unpacking -/

theorem wf_no_angle (e : UriEntry) (h : e.wf = true) :
    '<' ∉ e.uri.data ∧ '>' ∉ e.uri.data := by
  cases e <;> simp [UriEntry.wf, UriEntry.uri] at h ⊢ <;> tauto

theorem wf_http_unpack (u : String) (h : (UriEntry.http u).wf = true) :
    (httpScheme.isPrefixOf u.data = true
        ∧ httpScheme.length < u.data.length)
      ∨ (httpsScheme.isPrefixOf u.data = true
        ∧ httpsScheme.length < u.data.length) := by
  simp only [UriEntry.wf, Bool.and_eq_true, Bool.or_eq_true,
    Bool.not_eq_true', decide_eq_true_eq] at h
  exact h.2

theorem wf_mailto_unpack (u : String) (h : (UriEntry.mailto u).wf = true) :
    mailtoScheme.isPrefixOf u.data = true
      ∧ mailtoScheme.length < u.data.length := by
  simp only [UriEntry.wf, Bool.and_eq_true, Bool.or_eq_true,
    Bool.not_eq_true', decide_eq_true_eq] at h
  exact ⟨h.1.2, h.2⟩

theorem wf_other_unpack (u : String) (h : (UriEntry.other u).wf = true) :
    httpScheme.isPrefixOf u.data = false
      ∧ httpsScheme.isPrefixOf u.data = false
      ∧ mailtoScheme.isPrefixOf u.data = false := by
  simp only [UriEntry.wf, Bool.and_eq_true, Bool.or_eq_true,
    Bool.not_eq_true', decide_eq_true_eq] at h
  exact ⟨h.1.1.2, h.1.2, h.2⟩

/-- How the http pass treats a single well-formed entry. -/
theorem http_entry_match (e : UriEntry) (hwf : e.wf = true) :
    (∃ v, e.httpLink = some v ∧ v = e.uri
      ∧ ∀ s, matchSchemes httpSchemes (e.uri.data ++ '>' :: s)
          = some (e.uri.data, s))
    ∨ (e.httpLink = none
      ∧ ∀ s, matchSchemes httpSchemes (e.uri.data ++ '>' :: s) = none) := by
  cases e with
  | http u =>
    left
    exact ⟨u, rfl, rfl, fun s => matchSchemes_http_entry _ _
      (wf_no_angle _ hwf).2 (wf_http_unpack u hwf)⟩
  | mailto u =>
    right
    exact ⟨rfl, fun s => matchSchemes_http_on_mailto _ _
      (wf_mailto_unpack u hwf).1⟩
  | other u =>
    right
    obtain ⟨h1, h2, h3⟩ := wf_other_unpack u hwf
    refine ⟨rfl, fun s => matchSchemes_none_of_no_prefix _ _ _ ?_⟩
    intro p hp
    simp only [httpSchemes, List.mem_cons] at hp
    rcases hp with rfl | rfl | hp
    · exact ⟨by decide, h1⟩
    · exact ⟨by decide, h2⟩
    · exact absurd hp (List.not_mem_nil p)

/-- How the mailto pass treats a single well-formed entry. -/
theorem mailto_entry_match (e : UriEntry) (hwf : e.wf = true) :
    (∃ v, e.mailtoLink = some v ∧ v = e.uri
      ∧ ∀ s, matchSchemes mailtoSchemes (e.uri.data ++ '>' :: s)
          = some (e.uri.data, s))
    ∨ (e.mailtoLink = none
      ∧ ∀ s, matchSchemes mailtoSchemes (e.uri.data ++ '>' :: s) = none) := by
  cases e with
  | http u =>
    right
    refine ⟨rfl, fun s => matchSchemes_mailto_on_http _ _ ?_⟩
    rcases wf_http_unpack u hwf with ⟨hpre, _⟩ | ⟨hpre, _⟩
    · exact Or.inl hpre
    · exact Or.inr hpre
  | mailto u =>
    left
    obtain ⟨hpre, hlen⟩ := wf_mailto_unpack u hwf
    exact ⟨u, rfl, rfl, fun s => matchSchemes_mailto_entry _ _
      (wf_no_angle _ hwf).2 hpre hlen⟩
  | other u =>
    right
    obtain ⟨h1, h2, h3⟩ := wf_other_unpack u hwf
    refine ⟨rfl, fun s => matchSchemes_none_of_no_prefix _ _ _ ?_⟩
    intro p hp
    simp only [mailtoSchemes, List.mem_cons] at hp
    rcases hp with rfl | hp
    · exact ⟨by decide, h3⟩
    · exact absurd hp (List.not_mem_nil p)

/-- A findall pass over a rendered well-formed header collects exactly the
entries its scheme set captures, in header order. -/
theorem findallL_renderHeader (schemes : List (List Char))
    (cap : UriEntry → Option String)
    (hcap : ∀ e, e.wf = true →
      (∃ v, cap e = some v ∧ v = e.uri
        ∧ ∀ s, matchSchemes schemes (e.uri.data ++ '>' :: s)
            = some (e.uri.data, s))
      ∨ (cap e = none
        ∧ ∀ s, matchSchemes schemes (e.uri.data ++ '>' :: s) = none))
    (es : List UriEntry) (hwf : ∀ e ∈ es, e.wf = true) :
    (findallL schemes (renderHeader es).data).map (fun l => (⟨l⟩ : String))
      = es.filterMap cap := by
  induction es with
  | nil => rfl
  | cons e rest ih =>
    have hwfe : e.wf = true := hwf e (List.mem_cons_self e rest)
    have hlt : '<' ∉ e.uri.data := (wf_no_angle e hwfe).1
    cases rest with
    | nil =>
      have hdata : (renderHeader [e]).data
          = '<' :: e.uri.data ++ '>' :: ([] : List Char) := by
        show (("<" ++ e.uri) ++ ">").data = _
        simp
      rw [hdata]
      rcases hcap e hwfe with ⟨v, hcape, hveq, hm⟩ | ⟨hcape, hm⟩
      · subst hveq
        rw [findallL_angle_found schemes _ _ (hm [])]
        simp only [List.map_cons, List.filterMap_cons, hcape]
        rfl
      · rw [findallL_angle_none schemes _ _ (hm []) hlt]
        simp only [List.filterMap_cons, hcape]
        rfl
    | cons e2 rest2 =>
      have hdata : (renderHeader (e :: e2 :: rest2)).data
          = '<' :: e.uri.data
              ++ '>' :: ',' :: ' ' :: (renderHeader (e2 :: rest2)).data := by
        show (("<" ++ e.uri ++ ">, ") ++ renderHeader (e2 :: rest2)).data = _
        simp
      rw [hdata]
      have ihr := ih (fun x hx => hwf x (List.mem_cons_of_mem e hx))
      rcases hcap e hwfe with ⟨v, hcape, hveq, hm⟩ | ⟨hcape, hm⟩
      · subst hveq
        rw [findallL_angle_found schemes _ _ (hm _)]
        rw [findallL_cons_ne schemes ',' _ (by decide)]
        rw [findallL_cons_ne schemes ' ' _ (by decide)]
        simp only [List.map_cons, List.filterMap_cons, hcape]
        rw [ihr]
        rfl
      · rw [findallL_angle_none schemes _ _ (hm _) hlt]
        rw [findallL_cons_ne schemes ',' _ (by decide)]
        rw [findallL_cons_ne schemes ' ' _ (by decide)]
        simp only [List.filterMap_cons, hcape]
        exact ihr.trans rfl

/-- **C6**: link extraction over a well-formed `List-Unsubscribe` header
(angle-bracket-delimited entries separated by `", "`) returns the http(s)
entries and the mailto entries as two sequences partitioned by scheme, in
header order, and drops every entry with any other scheme. -/
theorem extract_links_spec (es : List UriEntry)
    (hwf : ∀ e ∈ es, e.wf = true) :
    (extract_unsubscribe_links (renderHeader es)).http
      = es.filterMap UriEntry.httpLink
    ∧ (extract_unsubscribe_links (renderHeader es)).mailto
      = es.filterMap UriEntry.mailtoLink := by
  constructor
  · exact findallL_renderHeader httpSchemes UriEntry.httpLink
      (fun e h => http_entry_match e h) es hwf
  · exact findallL_renderHeader mailtoSchemes UriEntry.mailtoLink
      (fun e h => mailto_entry_match e h) es hwf

/-- Witness for C6 at the header of the specification's scenario. -/
theorem extract_links_spec_witness :
    (∀ e ∈ [UriEntry.http "https://x.test/unsub",
        UriEntry.mailto "mailto:a@x.test"], e.wf = true)
    ∧ renderHeader [UriEntry.http "https://x.test/unsub",
        UriEntry.mailto "mailto:a@x.test"]
      = "<https://x.test/unsub>, <mailto:a@x.test>"
    ∧ (extract_unsubscribe_links
        "<https://x.test/unsub>, <mailto:a@x.test>").http
      = ["https://x.test/unsub"]
    ∧ (extract_unsubscribe_links
        "<https://x.test/unsub>, <mailto:a@x.test>").mailto
      = ["mailto:a@x.test"] := by
  have hren : renderHeader [UriEntry.http "https://x.test/unsub",
      UriEntry.mailto "mailto:a@x.test"]
    = "<https://x.test/unsub>, <mailto:a@x.test>" := by decide
  have h := extract_links_spec [UriEntry.http "https://x.test/unsub",
    UriEntry.mailto "mailto:a@x.test"] (by decide)
  rw [hren] at h
  exact ⟨by decide, hren, h.1.trans (by decide), h.2.trans (by decide)⟩

end Mailbot
